import Mathlib

/-!
Verification of the JSON save/load helpers in notebooks/file_utils.py.

The module provides a custom JSON encoder (QiskitEncoder) whose fallback
tries four capability checks in order (tolist, complex, datetime, to_dict),
a save routine (save_to_json) that streams the serialization to a file, and
two load routines (load_properties, load_result) that parse generic JSON
and hand the parsed tree to external factory constructors.

Python values reaching the serializer are modelled by PyValue: JSON-native
primitives, lists and (string-keyed) dicts, and non-native objects carrying
optional capabilities mirroring the hasattr / isinstance checks of the
source.  The external factories (Result.from_dict, BackendProperties.from_dict)
are black boxes per the design; the loaders are parameterized by them.
-/

namespace FileUtils

/-- Model of datetime.datetime, carrying the fields isoformat prints. -/
structure DateTime where
  year : Nat
  month : Nat
  day : Nat
  hour : Nat
  minute : Nat
  second : Nat
  microsecond : Nat
deriving DecidableEq, Repr

/-- Left-pad the decimal representation of n with zeros to width w,
as Python %0Nd formatting does for the in-range datetime fields. -/
def pad (w : Nat) (n : Nat) : String :=
  let s := toString n
  String.mk (List.replicate (w - s.length) '0') ++ s

/-- datetime.isoformat(): YYYY-MM-DDTHH:MM:SS, with a .ffffff suffix
exactly when the microsecond field is nonzero. -/
def DateTime.isoformat (d : DateTime) : String :=
  pad 4 d.year ++ "-" ++ pad 2 d.month ++ "-" ++ pad 2 d.day ++ "T" ++
    pad 2 d.hour ++ ":" ++ pad 2 d.minute ++ ":" ++ pad 2 d.second ++
    (if d.microsecond = 0 then "" else "." ++ pad 6 d.microsecond)

/-- Python values as seen by json.dump with the custom encoder: the
JSON-native values (None, bool, numbers, str, list, dict with string keys)
plus non-native objects.  A non-native object is modelled by its four
capabilities, each optional, mirroring the checks hasattr(obj, 'tolist'),
isinstance(obj, complex), isinstance(obj, datetime), hasattr(obj, 'to_dict'):
the payload of tolist is the value returned by obj.tolist(), the payload of
cplx the (real, imag) pair, the payload of dt the datetime fields, the
payload of todict the list of entries of obj.to_dict(). -/
inductive PyValue where
  | null : PyValue
  | boolean (b : Bool) : PyValue
  | num (q : Rat) : PyValue
  | str (s : String) : PyValue
  | list (xs : List PyValue) : PyValue
  | dict (kvs : List (String × PyValue)) : PyValue
  | obj (tolist : Option PyValue) (cplx : Option (Rat × Rat))
      (dt : Option DateTime) (todict : Option (List (String × PyValue))) : PyValue

/-- The only error the encoder fallback can signal: the TypeError
"Object of type ... is not JSON serializable" raised by
json.JSONEncoder.default. -/
inductive EncErr where
  | unsupportedType : EncErr
deriving DecidableEq, Repr

namespace QiskitEncoder

/-- QiskitEncoder.default: the fallback invoked on a non-native object,
given by its four capabilities.  Checks hasattr(obj, 'tolist'),
isinstance(obj, complex), isinstance(obj, datetime), hasattr(obj, 'to_dict')
in that order; if none applies it defers to json.JSONEncoder.default,
which raises TypeError. -/
def default (tolist : Option PyValue) (cplx : Option (Rat × Rat))
    (dt : Option DateTime) (todict : Option (List (String × PyValue))) :
    Except EncErr PyValue :=
  match tolist with
  | some t => .ok t
  | none =>
    match cplx with
    | some ri => .ok (.list [.num ri.1, .num ri.2])
    | none =>
      match dt with
      | some d => .ok (.str d.isoformat)
      | none =>
        match todict with
        | some kvs => .ok (.dict kvs)
        | none => .error .unsupportedType

end QiskitEncoder

/-- A chunk of the output stream of json.dump.  json.dump iterates the
chunks produced by the encoder and writes them to the file one by one, so
on an encoding error the file holds exactly the chunks emitted before the
failing value.  Structural chunks are the brackets and separators; a lit
chunk is the text of one primitive (null, true, false, a number, or a
complete quoted string literal). -/
inductive Tok where
  | lbrack : Tok
  | rbrack : Tok
  | lbrace : Tok
  | rbrace : Tok
  | comma : Tok
  | colon : Tok
  | lit (s : String) : Tok
deriving DecidableEq, Repr

/-- Decimal text of a rational, modelling Python repr of the number. -/
def renderNum (q : Rat) : String :=
  toString q.num ++ (if q.den = 1 then "" else "/" ++ toString q.den)

/-- Escape one character as inside a JSON string literal. -/
def escapeChar (c : Char) : String :=
  if c = '"' then "\\\"" else if c = '\\' then "\\\\" else String.singleton c

/-- A complete JSON string literal for s, quotes included. -/
def renderStr (s : String) : String :=
  "\"" ++ String.join (s.toList.map escapeChar) ++ "\""

mutual

/-- The chunk stream json.dump(v, cls=QiskitEncoder) emits for one value,
paired with the error aborting the stream, if any.  Native values are
serialized directly; a non-native object goes through the fallback
QiskitEncoder.default: the tolist payload is re-serialized, a complex
becomes the two-element array of its parts, a datetime its isoformat
string literal, a to_dict payload the corresponding JSON object, and with
no capability the stream aborts with the TypeError. -/
def dumpVal : PyValue → List Tok × Option EncErr
  | .null => ([.lit "null"], none)
  | .boolean b => ([.lit (if b then "true" else "false")], none)
  | .num q => ([.lit (renderNum q)], none)
  | .str s => ([.lit (renderStr s)], none)
  | .list xs =>
    let r := dumpElems xs
    match r.2 with
    | some e => (Tok.lbrack :: r.1, some e)
    | none => (Tok.lbrack :: r.1 ++ [Tok.rbrack], none)
  | .dict kvs =>
    let r := dumpEntries kvs
    match r.2 with
    | some e => (Tok.lbrace :: r.1, some e)
    | none => (Tok.lbrace :: r.1 ++ [Tok.rbrace], none)
  | .obj tolist cplx dt todict =>
    match tolist with
    | some t => dumpVal t
    | none =>
      match cplx with
      | some ri =>
        ([Tok.lbrack, Tok.lit (renderNum ri.1), Tok.comma,
          Tok.lit (renderNum ri.2), Tok.rbrack], none)
      | none =>
        match dt with
        | some d => ([Tok.lit (renderStr d.isoformat)], none)
        | none =>
          match todict with
          | some kvs =>
            let r := dumpEntries kvs
            match r.2 with
            | some e => (Tok.lbrace :: r.1, some e)
            | none => (Tok.lbrace :: r.1 ++ [Tok.rbrace], none)
          | none => ([], some .unsupportedType)

/-- Chunk stream for the comma-separated elements of an array, aborting at
the first failing element. -/
def dumpElems : List PyValue → List Tok × Option EncErr
  | [] => ([], none)
  | [x] => dumpVal x
  | x :: y :: rest =>
    let r := dumpVal x
    match r.2 with
    | some e => (r.1, some e)
    | none =>
      let r2 := dumpElems (y :: rest)
      (r.1 ++ Tok.comma :: r2.1, r2.2)

/-- Chunk stream for the comma-separated entries of an object: each entry
is the quoted key, a colon, then the value stream. -/
def dumpEntries : List (String × PyValue) → List Tok × Option EncErr
  | [] => ([], none)
  | [(k, v)] =>
    let r := dumpVal v
    (Tok.lit (renderStr k) :: Tok.colon :: r.1, r.2)
  | (k, v) :: kv2 :: rest =>
    let r := dumpVal v
    match r.2 with
    | some e => (Tok.lit (renderStr k) :: Tok.colon :: r.1, some e)
    | none =>
      let r2 := dumpEntries (kv2 :: rest)
      (Tok.lit (renderStr k) :: Tok.colon :: r.1 ++ Tok.comma :: r2.1, r2.2)

end

/-- The universal JSON data model: what json.load returns and what a
successful json.dump denotes. -/
inductive Json where
  | null : Json
  | bool (b : Bool) : Json
  | num (q : Rat) : Json
  | str (s : String) : Json
  | arr (xs : List Json) : Json
  | obj (kvs : List (String × Json)) : Json

/-- Whether the parsed top-level JSON value is an array: the
isinstance(tmp, list) test of load_result. -/
def Json.isArr : Json → Bool
  | .arr _ => true
  | _ => false

mutual

/-- The JSON tree a successful serialization denotes: the value-level view
of json.dumps(v, cls=QiskitEncoder), with the same four fallback branches
and the same TypeError when none applies. -/
def encodeValue : PyValue → Except EncErr Json
  | .null => .ok .null
  | .boolean b => .ok (.bool b)
  | .num q => .ok (.num q)
  | .str s => .ok (.str s)
  | .list xs =>
    match encodeList xs with
    | .error e => .error e
    | .ok js => .ok (.arr js)
  | .dict kvs =>
    match encodeKvs kvs with
    | .error e => .error e
    | .ok js => .ok (.obj js)
  | .obj tolist cplx dt todict =>
    match tolist with
    | some t => encodeValue t
    | none =>
      match cplx with
      | some ri => .ok (.arr [.num ri.1, .num ri.2])
      | none =>
        match dt with
        | some d => .ok (.str d.isoformat)
        | none =>
          match todict with
          | some kvs =>
            match encodeKvs kvs with
            | .error e => .error e
            | .ok js => .ok (.obj js)
          | none => .error .unsupportedType

/-- Value-level encoding of the elements of an array, aborting at the
first failure. -/
def encodeList : List PyValue → Except EncErr (List Json)
  | [] => .ok []
  | x :: xs =>
    match encodeValue x with
    | .error e => .error e
    | .ok j =>
      match encodeList xs with
      | .error e => .error e
      | .ok js => .ok (j :: js)

/-- Value-level encoding of the entries of an object, aborting at the
first failure. -/
def encodeKvs : List (String × PyValue) → Except EncErr (List (String × Json))
  | [] => .ok []
  | (k, v) :: rest =>
    match encodeValue v with
    | .error e => .error e
    | .ok j =>
      match encodeKvs rest with
      | .error e => .error e
      | .ok js => .ok ((k, j) :: js)

end

/-- Outcome of save_to_json: the chunks actually written to the file
(open(filename, 'w') truncates it first) and the error json.dump raised,
if any. -/
structure SaveOutcome where
  written : List Tok
  error : Option EncErr
deriving DecidableEq, Repr

/-- save_to_json(obj, filename): stream json.dump(obj, file,
cls=QiskitEncoder) into the (truncated) file; the file ends up holding
exactly the emitted chunks, complete on success, cut at the failing value
on an encoding error. -/
def save_to_json (obj : PyValue) : SaveOutcome :=
  ⟨(dumpVal obj).1, (dumpVal obj).2⟩

/-- The text of the file written by save_to_json. -/
def renderTok : Tok → String
  | .lbrack => "["
  | .rbrack => "]"
  | .lbrace => "\x7b"
  | .rbrace => "\x7d"
  | .comma => ", "
  | .colon => ": "
  | .lit s => s

/-- File content as a string: the concatenation of the written chunks. -/
def contentString (so : SaveOutcome) : String :=
  String.join (so.written.map renderTok)

/-- Errors a load routine can surface: the json.JSONDecodeError of
json.load on malformed text, or whatever the external factory raised,
carried unchanged. -/
inductive LoadError (E : Type) where
  | parseError (msg : String) : LoadError E
  | factoryError (e : E) : LoadError E
deriving DecidableEq, Repr

/-- The list comprehension [Result.from_dict(i) for i in tmp]: applies the
factory to each element in order; an exception aborts the whole
comprehension and propagates. -/
def mapFromDict {E R : Type} (from_dict : Json → Except E R) :
    List Json → Except E (List R)
  | [] => .ok []
  | j :: js =>
    match from_dict j with
    | .error e => .error e
    | .ok r =>
      match mapFromDict from_dict js with
      | .error e => .error e
      | .ok rs => .ok (r :: rs)

/-- The polymorphic return of load_result: a list of reconstructed result
objects, or a single one, as the shape of the file decides. -/
inductive LoadedResult (R : Type) where
  | many (rs : List R) : LoadedResult R
  | one (r : R) : LoadedResult R
deriving DecidableEq, Repr

/-- load_result(filename), parameterized by the external factory
Result.from_dict (a black box per the design).  The file argument is the
outcome of json.load: a parse error on malformed text, or the parsed JSON
tree.  If the parsed top-level value is a list, reconstruct one result per
element in order; otherwise reconstruct a single result. -/
def load_result {E R : Type} (from_dict : Json → Except E R)
    (file : Except String Json) : Except (LoadError E) (LoadedResult R) :=
  match file with
  | .error msg => .error (.parseError msg)
  | .ok tmp =>
    match tmp with
    | .arr xs =>
      match mapFromDict from_dict xs with
      | .error e => .error (.factoryError e)
      | .ok rs => .ok (.many rs)
    | j =>
      match from_dict j with
      | .error e => .error (.factoryError e)
      | .ok r => .ok (.one r)

/-- load_properties(filename), parameterized by the external factory
BackendProperties.from_dict (a black box per the design).  Parses the file
as generic JSON and passes the parsed tree unmodified to the factory;
every error propagates unchanged. -/
def load_properties {E P : Type} (from_dict : Json → Except E P)
    (file : Except String Json) : Except (LoadError E) P :=
  match file with
  | .error msg => .error (.parseError msg)
  | .ok j =>
    match from_dict j with
    | .error e => .error (.factoryError e)
    | .ok p => .ok p

/-- Net bracket contribution of one chunk: structural opens count +1,
structural closes -1; separators and complete literals 0 (a bracket
character inside a string literal sits inside a lit chunk and has no
structural role). -/
def tokDepth : Tok → Int
  | .lbrack => 1
  | .lbrace => 1
  | .rbrack => -1
  | .rbrace => -1
  | .comma => 0
  | .colon => 0
  | .lit _ => 0

/-- Net bracket depth of a chunk stream. -/
def netDepth (ts : List Tok) : Int :=
  (ts.map tokDepth).sum

@[simp] theorem netDepth_nil : netDepth [] = 0 := rfl

@[simp] theorem netDepth_cons (t : Tok) (ts : List Tok) :
    netDepth (t :: ts) = tokDepth t + netDepth ts := by
  simp [netDepth]

@[simp] theorem netDepth_append (ts us : List Tok) :
    netDepth (ts ++ us) = netDepth ts + netDepth us := by
  simp [netDepth]

mutual

/-- Whether serialization of v reaches a non-native object with none of
the four capabilities: the values on which json.dump(·, cls=QiskitEncoder)
raises.  Unreached parts (a to_dict payload shadowed by tolist) do not
count, matching the traversal. -/
def containsUnsupported : PyValue → Bool
  | .null => false
  | .boolean _ => false
  | .num _ => false
  | .str _ => false
  | .list xs => anyUnsupported xs
  | .dict kvs => anyUnsupportedKvs kvs
  | .obj tolist cplx dt todict =>
    match tolist with
    | some t => containsUnsupported t
    | none =>
      match cplx with
      | some _ => false
      | none =>
        match dt with
        | some _ => false
        | none =>
          match todict with
          | some kvs => anyUnsupportedKvs kvs
          | none => true

/-- containsUnsupported over the elements of a list. -/
def anyUnsupported : List PyValue → Bool
  | [] => false
  | x :: xs => containsUnsupported x || anyUnsupported xs

/-- containsUnsupported over the values of entries. -/
def anyUnsupportedKvs : List (String × PyValue) → Bool
  | [] => false
  | (_, v) :: rest => containsUnsupported v || anyUnsupportedKvs rest

end

/-- The encoder has a single error. -/
theorem EncErr.eq_unsupported (e : EncErr) : e = .unsupportedType := by
  cases e; rfl

mutual

/-- A successful dump emits a nonempty, bracket-balanced chunk stream. -/
theorem dumpVal_ok_balanced (v : PyValue) :
    (dumpVal v).2 = none → netDepth (dumpVal v).1 = 0 ∧ (dumpVal v).1 ≠ [] := by
  cases v with
  | null => intro h; simp [dumpVal, tokDepth]
  | boolean b => intro h; simp [dumpVal, tokDepth]
  | num q => intro h; simp [dumpVal, tokDepth]
  | str s => intro h; simp [dumpVal, tokDepth]
  | list xs =>
    intro h
    simp only [dumpVal] at h ⊢
    rcases he : (dumpElems xs).2 with _ | e
    · have h1 := dumpElems_ok_balanced xs he
      simp [he, tokDepth]
      omega
    · simp [he] at h
  | dict kvs =>
    intro h
    simp only [dumpVal] at h ⊢
    rcases he : (dumpEntries kvs).2 with _ | e
    · have h1 := dumpEntries_ok_balanced kvs he
      simp [he, tokDepth]
      omega
    · simp [he] at h
  | obj tl cx dt td =>
    intro h
    match tl, cx, dt, td with
    | some t, _, _, _ =>
      simp only [dumpVal] at h ⊢
      exact dumpVal_ok_balanced t h
    | none, some ri, _, _ => simp [dumpVal, tokDepth]
    | none, none, some d, _ => simp [dumpVal, tokDepth]
    | none, none, none, some kvs =>
      simp only [dumpVal] at h ⊢
      rcases he : (dumpEntries kvs).2 with _ | e
      · have h1 := dumpEntries_ok_balanced kvs he
        simp [he, tokDepth]
        omega
      · simp [he] at h
    | none, none, none, none => simp [dumpVal] at h

/-- A successful element stream is bracket-balanced. -/
theorem dumpElems_ok_balanced (xs : List PyValue) :
    (dumpElems xs).2 = none → netDepth (dumpElems xs).1 = 0 := by
  match xs with
  | [] => intro h; simp [dumpElems]
  | [x] => intro h; simpa [dumpElems] using (dumpVal_ok_balanced x h).1
  | x :: y :: rest =>
    intro h
    simp only [dumpElems] at h ⊢
    rcases he : (dumpVal x).2 with _ | e
    · have h1 := (dumpVal_ok_balanced x he).1
      have h2 := dumpElems_ok_balanced (y :: rest)
      simp [he] at h ⊢
      simp [tokDepth]
      have h3 := h2 h
      omega
    · simp [he] at h

/-- A successful entry stream is bracket-balanced. -/
theorem dumpEntries_ok_balanced (kvs : List (String × PyValue)) :
    (dumpEntries kvs).2 = none → netDepth (dumpEntries kvs).1 = 0 := by
  match kvs with
  | [] => intro h; simp [dumpEntries]
  | [(k, v)] =>
    intro h
    simp only [dumpEntries] at h ⊢
    have h1 := (dumpVal_ok_balanced v h).1
    simp [tokDepth]
    omega
  | (k, v) :: kv2 :: rest =>
    intro h
    simp only [dumpEntries] at h ⊢
    rcases he : (dumpVal v).2 with _ | e
    · have h1 := (dumpVal_ok_balanced v he).1
      have h2 := dumpEntries_ok_balanced (kv2 :: rest)
      simp [he] at h ⊢
      simp [tokDepth]
      have h3 := h2 h
      omega
    · simp [he] at h

end

mutual

/-- An aborted dump leaves either nothing or a stream with strictly more
structural opens than closes. -/
theorem dumpVal_err_open (v : PyValue) :
    ∀ e, (dumpVal v).2 = some e →
      (dumpVal v).1 = [] ∨ 1 ≤ netDepth (dumpVal v).1 := by
  cases v with
  | null => intro e h; simp [dumpVal] at h
  | boolean b => intro e h; simp [dumpVal] at h
  | num q => intro e h; simp [dumpVal] at h
  | str s => intro e h; simp [dumpVal] at h
  | list xs =>
    intro e h
    simp only [dumpVal] at h ⊢
    rcases he : (dumpElems xs).2 with _ | e2
    · simp [he] at h
    · have h1 := dumpElems_err_open xs e2 he
      simp [he, tokDepth]
      omega
  | dict kvs =>
    intro e h
    simp only [dumpVal] at h ⊢
    rcases he : (dumpEntries kvs).2 with _ | e2
    · simp [he] at h
    · have h1 := dumpEntries_err_open kvs e2 he
      simp [he, tokDepth]
      omega
  | obj tl cx dt td =>
    intro e h
    match tl, cx, dt, td with
    | some t, _, _, _ =>
      simp only [dumpVal] at h ⊢
      exact dumpVal_err_open t e h
    | none, some ri, _, _ => simp [dumpVal] at h
    | none, none, some d, _ => simp [dumpVal] at h
    | none, none, none, some kvs =>
      simp only [dumpVal] at h ⊢
      rcases he : (dumpEntries kvs).2 with _ | e2
      · simp [he] at h
      · have h1 := dumpEntries_err_open kvs e2 he
        simp [he, tokDepth]
        omega
    | none, none, none, none => simp [dumpVal]

/-- An aborted element stream never closes more than it opens. -/
theorem dumpElems_err_open (xs : List PyValue) :
    ∀ e, (dumpElems xs).2 = some e → 0 ≤ netDepth (dumpElems xs).1 := by
  match xs with
  | [] => intro e h; simp [dumpElems] at h
  | [x] =>
    intro e h
    simp only [dumpElems] at h ⊢
    rcases dumpVal_err_open x e h with h1 | h1
    · simp [h1]
    · omega
  | x :: y :: rest =>
    intro e h
    simp only [dumpElems] at h ⊢
    rcases he : (dumpVal x).2 with _ | e2
    · have h1 := (dumpVal_ok_balanced x he).1
      simp [he] at h ⊢
      have h2 := dumpElems_err_open (y :: rest) e h
      simp [tokDepth]
      omega
    · rcases dumpVal_err_open x e2 he with h1 | h1 <;>
        (simp [he, h1]; try omega)

/-- An aborted entry stream never closes more than it opens. -/
theorem dumpEntries_err_open (kvs : List (String × PyValue)) :
    ∀ e, (dumpEntries kvs).2 = some e → 0 ≤ netDepth (dumpEntries kvs).1 := by
  match kvs with
  | [] => intro e h; simp [dumpEntries] at h
  | [(k, v)] =>
    intro e h
    simp only [dumpEntries] at h ⊢
    rcases dumpVal_err_open v e h with h1 | h1 <;>
      (simp [h1, tokDepth]; try omega)
  | (k, v) :: kv2 :: rest =>
    intro e h
    simp only [dumpEntries] at h ⊢
    rcases he : (dumpVal v).2 with _ | e2
    · have h1 := (dumpVal_ok_balanced v he).1
      simp [he] at h ⊢
      have h2 := dumpEntries_err_open (kv2 :: rest) e h
      simp [tokDepth]
      omega
    · rcases dumpVal_err_open v e2 he with h1 | h1 <;>
        (simp [he, h1, tokDepth]; try omega)

end

mutual

/-- The dump aborts exactly on the values containsUnsupported flags. -/
theorem containsUnsupported_iff_dump_err (v : PyValue) :
    containsUnsupported v = (dumpVal v).2.isSome := by
  cases v with
  | null => simp [containsUnsupported, dumpVal]
  | boolean b => simp [containsUnsupported, dumpVal]
  | num q => simp [containsUnsupported, dumpVal]
  | str s => simp [containsUnsupported, dumpVal]
  | list xs =>
    have h1 := anyUnsupported_iff_dump_err xs
    simp only [containsUnsupported, dumpVal]
    rcases he : (dumpElems xs).2 with _ | e <;> simp [he] at h1 ⊢ <;> exact h1
  | dict kvs =>
    have h1 := anyUnsupportedKvs_iff_dump_err kvs
    simp only [containsUnsupported, dumpVal]
    rcases he : (dumpEntries kvs).2 with _ | e <;> simp [he] at h1 ⊢ <;> exact h1
  | obj tl cx dt td =>
    match tl, cx, dt, td with
    | some t, _, _, _ =>
      simp only [containsUnsupported, dumpVal]
      exact containsUnsupported_iff_dump_err t
    | none, some ri, _, _ => simp [containsUnsupported, dumpVal]
    | none, none, some d, _ => simp [containsUnsupported, dumpVal]
    | none, none, none, some kvs =>
      have h1 := anyUnsupportedKvs_iff_dump_err kvs
      simp only [containsUnsupported, dumpVal]
      rcases he : (dumpEntries kvs).2 with _ | e <;> simp [he] at h1 ⊢ <;> exact h1
    | none, none, none, none => simp [containsUnsupported, dumpVal]

/-- The element stream aborts exactly when some element is flagged. -/
theorem anyUnsupported_iff_dump_err (xs : List PyValue) :
    anyUnsupported xs = (dumpElems xs).2.isSome := by
  match xs with
  | [] => simp [anyUnsupported, dumpElems]
  | [x] =>
    have h1 := containsUnsupported_iff_dump_err x
    simp only [anyUnsupported, dumpElems, anyUnsupported]
    simp [h1]
  | x :: y :: rest =>
    have h1 := containsUnsupported_iff_dump_err x
    have h2 := anyUnsupported_iff_dump_err (y :: rest)
    simp only [anyUnsupported, dumpElems]
    rcases he : (dumpVal x).2 with _ | e
    · simp [he] at h1 ⊢
      simp [h1]
      exact h2
    · simp [he] at h1 ⊢
      simp [h1]

/-- The entry stream aborts exactly when some entry value is flagged. -/
theorem anyUnsupportedKvs_iff_dump_err (kvs : List (String × PyValue)) :
    anyUnsupportedKvs kvs = (dumpEntries kvs).2.isSome := by
  match kvs with
  | [] => simp [anyUnsupportedKvs, dumpEntries]
  | [(k, v)] =>
    have h1 := containsUnsupported_iff_dump_err v
    simp only [anyUnsupportedKvs, dumpEntries]
    simp [h1]
  | (k, v) :: kv2 :: rest =>
    have h1 := containsUnsupported_iff_dump_err v
    have h2 := anyUnsupportedKvs_iff_dump_err (kv2 :: rest)
    simp only [anyUnsupportedKvs, dumpEntries]
    rcases he : (dumpVal v).2 with _ | e
    · simp [he] at h1 ⊢
      simp [h1]
      exact h2
    · simp [he] at h1 ⊢
      simp [h1]

end

/-- C1: QiskitEncoder.default tries the four capability checks in exactly
the order to-sequence, complex, timestamp, to-mapping: a present tolist
capability decides the outcome whatever the other three are; complex
decides when tolist is absent; timestamp when tolist and complex are
absent; to_dict only when the first three are absent; and a value with
both the to-sequence and the to-mapping capability is encoded as its
tolist sequence, never via its to_dict mapping. -/
theorem default_priority_order :
    (∀ t cx dt td, QiskitEncoder.default (some t) cx dt td = .ok t) ∧
    (∀ ri dt td, QiskitEncoder.default none (some ri) dt td =
      .ok (.list [.num ri.1, .num ri.2])) ∧
    (∀ d td, QiskitEncoder.default none none (some d) td =
      .ok (.str d.isoformat)) ∧
    (∀ kvs, QiskitEncoder.default none none none (some kvs) =
      .ok (.dict kvs)) ∧
    (∀ t kvs cx dt, QiskitEncoder.default (some t) cx dt (some kvs) = .ok t) :=
  ⟨fun _ _ _ _ => rfl, fun _ _ _ => rfl, fun _ _ => rfl, fun _ => rfl,
    fun _ _ _ _ => rfl⟩

/-- C3: the encoder fallback is total: on every value its outcome is
either a successful conversion by one of the four branches or the
"unsupported type" error, and the error occurs exactly when no capability
is present. -/
theorem default_total (tl : Option PyValue) (cx : Option (Rat × Rat))
    (dt : Option DateTime) (td : Option (List (String × PyValue))) :
    (QiskitEncoder.default tl cx dt td = .error .unsupportedType ↔
      tl = none ∧ cx = none ∧ dt = none ∧ td = none) ∧
    ((∃ v, QiskitEncoder.default tl cx dt td = .ok v) ∨
      QiskitEncoder.default tl cx dt td = .error .unsupportedType) := by
  rcases tl with _ | t
  · rcases cx with _ | ri
    · rcases dt with _ | d
      · rcases td with _ | kvs
        · exact ⟨by simp [QiskitEncoder.default], Or.inr rfl⟩
        · exact ⟨by simp [QiskitEncoder.default], Or.inl ⟨_, rfl⟩⟩
      · exact ⟨by simp [QiskitEncoder.default], Or.inl ⟨_, rfl⟩⟩
    · exact ⟨by simp [QiskitEncoder.default], Or.inl ⟨_, rfl⟩⟩
  · exact ⟨by simp [QiskitEncoder.default], Or.inl ⟨_, rfl⟩⟩

/-- C5: a complex number that is not array-like encodes to the 2-element
ordered sequence of its real and imaginary parts, whatever the remaining
checks would say; in particular 3+4j encodes to [3, 4]. -/
theorem default_complex_pair (r i : Rat) (dt : Option DateTime)
    (td : Option (List (String × PyValue))) :
    QiskitEncoder.default none (some (r, i)) dt td =
      .ok (.list [.num r, .num i]) ∧
    QiskitEncoder.default none (some (3, 4)) none none =
      .ok (.list [.num 3, .num 4]) :=
  ⟨rfl, rfl⟩

/-- C6: a timestamp that is neither array-like nor a complex number
encodes to its ISO-8601 string, whatever the to_dict check would say; in
particular 2024-01-01T00:00:00 encodes to the string
"2024-01-01T00:00:00". -/
theorem default_datetime_iso (d : DateTime)
    (td : Option (List (String × PyValue))) :
    QiskitEncoder.default none none (some d) td = .ok (.str d.isoformat) ∧
    DateTime.isoformat ⟨2024, 1, 1, 0, 0, 0, 0⟩ = "2024-01-01T00:00:00" :=
  ⟨rfl, by decide⟩

/-- C8: load_properties hands the parsed JSON tree unmodified to the
external factory and returns its result; malformed JSON yields the parse
error, a factory error propagates unchanged, and a factory success is
returned as is — no retry, wrapping, or fallback value. -/
theorem load_properties_delegation {E P : Type} (f : Json → Except E P) :
    (∀ j, load_properties f (.ok j) = (f j).mapError LoadError.factoryError) ∧
    (∀ msg, load_properties f (.error msg) = .error (.parseError msg)) ∧
    (∀ j e, f j = .error e →
      load_properties f (.ok j) = .error (.factoryError e)) ∧
    (∀ j p, f j = .ok p → load_properties f (.ok j) = .ok p) := by
  refine ⟨fun j => ?_, fun msg => rfl, fun j e h => ?_, fun j p h => ?_⟩
  · rcases h : f j with e | p <;> simp [load_properties, h, Except.mapError]
  · simp [load_properties, h]
  · simp [load_properties, h]

/-- Witness for C8 at a concrete factory and input. -/
theorem load_properties_delegation_witness :
    load_properties (fun _ => (Except.ok 0 : Except Unit Nat))
      (.ok Json.null) = .ok 0 :=
  (load_properties_delegation (fun _ => (Except.ok 0 : Except Unit Nat))).2.2.2
    Json.null 0 rfl

/-- C9: load_result on a file parsing to the empty JSON array returns the
empty sequence for every factory whatsoever — no error is raised and the
factory is never consulted. -/
theorem load_result_empty_array {E R : Type} (f : Json → Except E R) :
    load_result f (.ok (.arr [])) = .ok (.many []) := rfl

/-- C10: the encoder is deterministic: save_to_json on equal inputs
produces identical outcomes, hence byte-identical file text. -/
theorem save_deterministic (v1 v2 : PyValue) (h : v1 = v2) :
    save_to_json v1 = save_to_json v2 ∧
    contentString (save_to_json v1) = contentString (save_to_json v2) := by
  subst h; exact ⟨rfl, rfl⟩

/-- Witness for C10 at a concrete input. -/
theorem save_deterministic_witness :
    save_to_json (.num 1) = save_to_json (.num 1) ∧
    contentString (save_to_json (.num 1)) =
      contentString (save_to_json (.num 1)) :=
  save_deterministic (.num 1) (.num 1) rfl

/-- A successful comprehension reconstructs one value per element, in
order. -/
theorem mapFromDict_ok {E R : Type} (f : Json → Except E R) :
    ∀ xs rs, mapFromDict f xs = .ok rs →
      rs.length = xs.length ∧
      ∀ i (h1 : i < xs.length) (h2 : i < rs.length),
        f (xs.get ⟨i, h1⟩) = .ok (rs.get ⟨i, h2⟩) := by
  intro xs
  induction xs with
  | nil =>
    intro rs h
    simp [mapFromDict] at h
    subst h
    exact ⟨rfl, fun i h1 h2 => absurd h1 (by simp)⟩
  | cons j js ih =>
    intro rs h
    simp only [mapFromDict] at h
    rcases hf : f j with e | r
    · simp [hf] at h
    · rcases hm : mapFromDict f js with e | rs2
      · simp [hf, hm] at h
      · simp [hf, hm] at h
        subst h
        refine ⟨by simp [(ih rs2 hm).1], fun i h1 h2 => ?_⟩
        match i with
        | 0 => simpa using hf
        | n + 1 =>
          have h3 : n < js.length := by simpa using h1
          have h4 : n < rs2.length := by simpa using h2
          simpa using (ih rs2 hm).2 n h3 h4

/-- C2: when the parsed top-level JSON value is an array of N elements,
load_result returns the sequence of the N reconstructed results in file
order (element i of the output is the factory applied to element i of the
file); when the parsed top-level value is not an array, it returns the
single reconstructed result, not wrapped in a sequence. -/
theorem load_result_shape {E R : Type} (f : Json → Except E R) :
    (∀ xs rs, mapFromDict f xs = .ok rs →
      load_result f (.ok (.arr xs)) = .ok (.many rs) ∧
      rs.length = xs.length ∧
      ∀ i (h1 : i < xs.length) (h2 : i < rs.length),
        f (xs.get ⟨i, h1⟩) = .ok (rs.get ⟨i, h2⟩)) ∧
    (∀ j r, Json.isArr j = false → f j = .ok r →
      load_result f (.ok j) = .ok (.one r)) := by
  constructor
  · intro xs rs h
    exact ⟨by simp [load_result, h], (mapFromDict_ok f xs rs h).1,
      (mapFromDict_ok f xs rs h).2⟩
  · intro j r hj hr
    cases j <;> simp [Json.isArr] at hj <;> simp [load_result, hr]

/-- Witness for C2 at a concrete factory and one-element file. -/
theorem load_result_shape_witness :
    load_result (fun j => (Except.ok j : Except Unit Json))
      (.ok (.arr [Json.null])) = .ok (.many [Json.null]) :=
  ((load_result_shape (fun j => (Except.ok j : Except Unit Json))).1
    [Json.null] [Json.null] rfl).1

/-- C4: round trip for a supported value v with a matching load routine:
if v encodes to the JSON tree j (the parsed content of the saved file),
the top-level shape is the single-object one, and the external factory
reconstructs from j a value r equal to v under the domain equality, then
both load routines applied to the saved encoding return exactly that
value: decode(encode(v)) = v up to the domain equality. -/
theorem decode_encode_roundtrip {E R : Type} (eqv : R → PyValue → Prop)
    (from_dict : Json → Except E R) (v : PyValue) (j : Json) (r : R)
    (henc : encodeValue v = .ok j) (harr : Json.isArr j = false)
    (hfac : from_dict j = .ok r) (heqv : eqv r v) :
    load_result from_dict (.ok j) = .ok (.one r) ∧
    load_properties from_dict (.ok j) = .ok r ∧ eqv r v := by
  refine ⟨?_, by simp [load_properties, hfac], heqv⟩
  cases j <;> simp [Json.isArr] at harr <;> simp [load_result, hfac]

/-- Witness for C4 at a concrete value, encoding, and factory. -/
theorem decode_encode_roundtrip_witness :
    load_result (fun j => (Except.ok j : Except Unit Json))
      (.ok (Json.obj [])) = .ok (.one (Json.obj [])) :=
  (decode_encode_roundtrip (fun r w => encodeValue w = .ok r)
    (fun j => (Except.ok j : Except Unit Json)) (.dict []) (Json.obj [])
    (Json.obj []) rfl rfl rfl rfl).1

/-- C7: saving a value containing an unsupported one raises the encoding
error, and the chunk stream left in the file is not the stream of any
complete, successful serialization — the file holds no complete JSON
document. -/
theorem save_failure_no_valid_json (v : PyValue)
    (h : containsUnsupported v = true) :
    ∃ ts, save_to_json v = ⟨ts, some EncErr.unsupportedType⟩ ∧
      ∀ w ts2, dumpVal w = (ts2, none) → ts ≠ ts2 := by
  have h1 := containsUnsupported_iff_dump_err v
  rw [h] at h1
  rcases h2 : (dumpVal v).2 with _ | e
  · rw [h2] at h1; simp at h1
  · refine ⟨(dumpVal v).1, ?_, ?_⟩
    · have he := EncErr.eq_unsupported e
      subst he
      simp [save_to_json, h2]
    · intro w ts2 hw hEq
      have hok := dumpVal_ok_balanced w (by simp [hw])
      rw [hw] at hok
      simp at hok
      rcases dumpVal_err_open v e h2 with h3 | h3
      · exact hok.2 (by rw [← hEq, h3])
      · rw [hEq] at h3
        have h4 := hok.1
        omega

/-- Witness for C7 at a concrete failing value. -/
theorem save_failure_no_valid_json_witness :
    ∃ ts, save_to_json (.list [.obj none none none none]) =
      ⟨ts, some EncErr.unsupportedType⟩ ∧
      ∀ w ts2, dumpVal w = (ts2, none) → ts ≠ ts2 :=
  save_failure_no_valid_json (.list [.obj none none none none]) rfl

end FileUtils
